import Mathlib

/-!
Verification of the occupancy / revenue reporting engine of the ProHost
booking-management repository.

The embedding mirrors two code paths:
* the client-side report builder `reportData` in `src/App.tsx`
  (lines 1190-1265), and
* the server-side resolvers `getOccupancyReport` / `getRevenueReport` in
  `prohost-server/src/resolvers/reportResolvers.ts` and the query helpers in
  `prohost-server/src/resolvers/bookingResolvers.ts`.

Dates: the source stores dates as ISO `yyyy-MM-dd` strings and compares them
lexicographically, while `date-fns` helpers (`differenceInDays`, `addDays`,
`startOfMonth`, `endOfMonth`, `eachMonthOfInterval`) operate on parsed dates.
For valid zero-padded ISO dates lexicographic string order coincides with
chronological order, so a date is embedded as its day number (`ℤ`, days since
a fixed epoch, computed by `toDayNumber` from a calendar date), and every
string comparison of the source becomes the corresponding integer comparison.
Monetary values (`totalPrice`, `deposit`, `remaining`) are JS numbers carrying
exact decimal data in all claims at issue; they are embedded as `ℚ`.
-/

namespace ProHost

/-! ## Gregorian calendar (the fragment of date-fns used by the source) -/

/-- Gregorian leap-year test. -/
def isLeap (y : ℕ) : Bool :=
  (y % 4 == 0 && y % 100 != 0) || y % 400 == 0

/-- Number of days of month `m` (1-based) of year `y`
(`date-fns` `getDaysInMonth`, also `new Date(year, month, 0).getDate()`). -/
def daysInMonthOf (y m : ℕ) : ℕ :=
  if m = 2 then (if isLeap y then 29 else 28)
  else if m = 4 ∨ m = 6 ∨ m = 9 ∨ m = 11 then 30
  else 31

/-- A calendar date as written in an ISO `yyyy-MM-dd` string. -/
structure CalDate where
  year : ℕ
  month : ℕ
  day : ℕ
deriving DecidableEq, Repr

/-- Days of year `y` that precede month `m` (1-based). -/
def daysBeforeMonth (y m : ℕ) : ℕ :=
  ((List.range (m - 1)).map (fun k => daysInMonthOf y (k + 1))).sum

/-- Day number of a calendar date: days elapsed since the epoch
`0001-01-01 = 1`.  This is the quantity underlying `differenceInDays` and
the chronological order of ISO date strings. -/
def toDayNumber (dt : CalDate) : ℤ :=
  let p := dt.year - 1
  ((365 * p + p / 4 - p / 100 + p / 400 + daysBeforeMonth dt.year dt.month + dt.day : ℕ) : ℤ)

/-- Linear month index used to enumerate the months of an interval. -/
def monthIndex (ym : ℕ × ℕ) : ℕ := 12 * ym.1 + (ym.2 - 1)

/-- Inverse of `monthIndex`. -/
def monthOfIndex (i : ℕ) : ℕ × ℕ := (i / 12, i % 12 + 1)

/-- Ascending list of `(year, month)` pairs from month `a` to month `b`
inclusive. -/
def monthsAsc (a b : ℕ × ℕ) : List (ℕ × ℕ) :=
  (List.range (monthIndex b + 1 - monthIndex a)).map (fun i => monthOfIndex (monthIndex a + i))

/-- `date-fns` `eachMonthOfInterval` (v3+ semantics): the first days of all
months touched by the interval, ascending; a reversed interval yields the
same months in descending order. -/
def monthsOfInterval (a b : CalDate) : List (ℕ × ℕ) :=
  if toDayNumber a ≤ toDayNumber b then monthsAsc (a.year, a.month) (b.year, b.month)
  else (monthsAsc (b.year, b.month) (a.year, a.month)).reverse

/-! ## Booking records

`checkIn`/`checkOut`/`createdAt` are embedded as day numbers (see the header
comment); `createdAt` is the day number of the date portion of the stored
`createdAt` timestamp (the source computes it as `createdAt.split('T')[0]`).
`status` is the status string as the respective code path sees it: uppercase
enum values on the client, the stored (lowercase) strings on the server. -/
structure Booking where
  room : String
  checkIn : ℤ
  checkOut : ℤ
  createdAt : ℤ
  nights : ℤ
  totalPrice : ℚ
  deposit : ℚ
  remaining : ℚ
  status : String
deriving DecidableEq, Repr

/-- Report basis selected in the UI (`reportType`): `'stay' | 'created'`. -/
inductive ReportType where
  | stay : ReportType
  | created : ReportType
deriving DecidableEq, Repr

/-- Room filter (`reportRoomFilter`): `none` is `'ALL'`, `some r` a room id. -/
def RoomFilter := Option String

/-- `reportType === 'stay' ? b.checkIn : b.createdAt.split('T')[0]`
(App.tsx line 1193). -/
def basisDate (rt : ReportType) (b : Booking) : ℤ :=
  match rt with
  | .stay => b.checkIn
  | .created => b.createdAt

/-- Room-filter test `reportRoomFilter === 'ALL' || b.room === reportRoomFilter`. -/
def roomMatches (filter : Option String) (b : Booking) : Bool :=
  match filter with
  | none => true
  | some r => b.room == r

/-- The room count entering the client fill-rate denominator:
`reportRoomFilter === 'ALL' ? rooms.length : 1` (App.tsx 1254). -/
def roomCount (filter : Option String) (rooms : List String) : ℤ :=
  match filter with
  | none => rooms.length
  | some _ => 1

/-- The rooms that can absorb occupied nights under a filter: all configured
rooms for `ALL`, the single filtered room otherwise. -/
def candidateRooms (filter : Option String) (rooms : List String) : List String :=
  match filter with
  | none => rooms
  | some r => [r]

/-! ## Client report builder (`reportData`, App.tsx 1190-1265) -/

/-- The `filtered` collection (App.tsx 1191-1197): non-canceled bookings whose
basis date lies in the inclusive report window and whose room matches. -/
def reportFiltered (bookings : List Booking) (rt : ReportType)
    (startD endD : ℤ) (filter : Option String) : List Booking :=
  bookings.filter (fun b =>
    b.status != "CANCELED" &&
    decide (startD ≤ basisDate rt b) && decide (basisDate rt b ≤ endD) &&
    roomMatches filter b)

/-- `roomBookings.some((b) => dStr >= b.checkIn && dStr < b.checkOut)`
(App.tsx 1212). -/
def isOccupied (roomBookings : List Booking) (d : ℤ) : Bool :=
  roomBookings.any (fun b => decide (b.checkIn ≤ d) && decide (d < b.checkOut))

/-- The day loop of App.tsx 1207-1216: iterate every day of the inclusive
window, counting the occupied ones. -/
def occupiedDays (roomBookings : List Booking) (startD endD : ℤ) : ℕ :=
  if 0 < endD - startD + 1 then
    ((List.range (endD - startD + 1).toNat).filter
      (fun i : ℕ => isOccupied roomBookings (startD + (i : ℤ)))).length
  else 0

/-- `daysInReport > 0 ? (occupiedDays / daysInReport) * 100 : 0`
(App.tsx 1217). -/
def occupancyRate (roomBookings : List Booking) (startD endD : ℤ) : ℚ :=
  if 0 < endD - startD + 1 then
    (occupiedDays roomBookings startD endD : ℚ) / ((endD - startD + 1 : ℤ) : ℚ) * 100
  else 0

structure RoomStat where
  roomId : String
  totalNights : ℤ
  totalRevenue : ℚ
  occupancyRate : ℚ
deriving DecidableEq, Repr

/-- One entry of `roomStats` (App.tsx 1199-1220). -/
def roomStat (filtered : List Booking) (roomId : String) (startD endD : ℤ) : RoomStat :=
  let roomBookings := filtered.filter (fun b => b.room == roomId)
  { roomId := roomId
    totalNights := (roomBookings.map (fun b => b.nights)).sum
    totalRevenue := (roomBookings.map (fun b => b.totalPrice)).sum
    occupancyRate := occupancyRate roomBookings startD endD }

/-- `monthBookings` (App.tsx 1234-1240): non-canceled bookings whose stay
interval intersects the month (`checkIn <= monthEnd && checkOut > realStart`)
and whose room matches.  `realStart` is the month's first day, `monthEnd` its
last day. -/
def monthBookings (bookings : List Booking) (filter : Option String)
    (realStart monthEnd : ℤ) : List Booking :=
  bookings.filter (fun b =>
    b.status != "CANCELED" &&
    decide (b.checkIn ≤ monthEnd) && decide (realStart < b.checkOut) &&
    roomMatches filter b)

/-- The monthly revenue fold (App.tsx 1242-1244): add `totalPrice` of the
month's bookings whose `checkIn` lies inside the month.  Note the source uses
`b.checkIn` here for both report bases. -/
def monthRevenue (bookings : List Booking) (filter : Option String)
    (realStart monthEnd : ℤ) : ℚ :=
  (((monthBookings bookings filter realStart monthEnd).filter
      (fun b => decide (realStart ≤ b.checkIn) && decide (b.checkIn ≤ monthEnd))).map
    (fun b => b.totalPrice)).sum

/-- Per-booking summand of the monthly occupancy fold (App.tsx 1246-1251):
`s = checkIn < realStart ? realStart : checkIn`,
`e = checkOut > monthEnd ? monthEnd : checkOut`, `max(0, e - s)`. -/
def clampedNights (realStart monthEnd : ℤ) (b : Booking) : ℤ :=
  let s := if b.checkIn < realStart then realStart else b.checkIn
  let e := if monthEnd < b.checkOut then monthEnd else b.checkOut
  max 0 (e - s)

/-- The monthly occupancy fold (App.tsx 1246-1251). -/
def monthOccupancy (bookings : List Booking) (filter : Option String)
    (realStart monthEnd : ℤ) : ℤ :=
  ((monthBookings bookings filter realStart monthEnd).map
    (clampedNights realStart monthEnd)).sum

/-- `totalPossibleNights > 0 ? occupancy / (totalPossibleNights * totalRooms) * 100 : 0`
(App.tsx 1253-1255). -/
def fillRate (bookings : List Booking) (filter : Option String)
    (rooms : List String) (realStart monthEnd : ℤ) : ℚ :=
  if 0 < monthEnd - realStart + 1 then
    (monthOccupancy bookings filter realStart monthEnd : ℚ) /
      (((monthEnd - realStart + 1 : ℤ) : ℚ) * ((roomCount filter rooms : ℤ) : ℚ)) * 100
  else 0

structure MonthStat where
  month : ℕ × ℕ
  revenue : ℚ
  fillRate : ℚ
deriving DecidableEq, Repr

/-- One entry of `monthlyStats` (App.tsx 1230-1262) for the month `ym`:
`realStart`/`monthEnd` are `format(startOfMonth(month))` and
`format(endOfMonth(month))`. -/
def monthStat (bookings : List Booking) (filter : Option String)
    (rooms : List String) : ℕ × ℕ → MonthStat
  | (y, m) =>
    let realStart := toDayNumber ⟨y, m, 1⟩
    let monthEnd := toDayNumber ⟨y, m, daysInMonthOf y m⟩
    { month := (y, m)
      revenue := monthRevenue bookings filter realStart monthEnd
      fillRate := fillRate bookings filter rooms realStart monthEnd }

structure ReportData where
  roomStats : List RoomStat
  totalRevenue : ℚ
  totalNights : ℤ
  bookingCount : ℕ
  monthlyStats : List MonthStat
deriving DecidableEq, Repr

/-- The whole `reportData` memo (App.tsx 1190-1265).  `rt` (`reportType`) is
consumed only by the `filtered` collection feeding `roomStats` and the grand
totals; the source never consults it in `monthlyStats`. -/
def reportData (bookings : List Booking) (rt : ReportType)
    (startDate endDate : CalDate) (filter : Option String)
    (rooms : List String) : ReportData :=
  let startD := toDayNumber startDate
  let endD := toDayNumber endDate
  let filtered := reportFiltered bookings rt startD endD filter
  { roomStats := rooms.map (fun r => roomStat filtered r startD endD)
    totalRevenue := (filtered.map (fun b => b.totalPrice)).sum
    totalNights := (filtered.map (fun b => b.nights)).sum
    bookingCount := filtered.length
    monthlyStats := (monthsOfInterval startDate endDate).map (monthStat bookings filter rooms) }

/-! ## Server resolvers (`reportResolvers.ts`, `bookingResolvers.ts`)

On the server, `Booking` stands for a stored Prisma row: its `status` is the
stored string, which the write path (`createBooking`, line 212:
`input.status?.toLowerCase() || 'upcoming'`) keeps lowercase. -/

/-- `Math.round(x * 100) / 100` (JS `Math.round x` is `⌊x + 1/2⌋`). -/
def jsRound2 (q : ℚ) : ℚ := ((⌊q * 100 + 1 / 2⌋ : ℤ) : ℚ) / 100

/-- The Prisma query of `getOccupancyReport` (reportResolvers.ts 21-34):
`checkIn ≤ endDate`, `checkOut ≥ startDate`, `status ≠ 'CANCELED'`
(a case-sensitive comparison against the stored string), optional room
equality.  `startD`/`endD` are the first and last day of the month. -/
def serverOccupancyQuery (rows : List Booking) (room : Option String)
    (startD endD : ℤ) : List Booking :=
  rows.filter (fun b =>
    decide (b.checkIn ≤ endD) && decide (startD ≤ b.checkOut) &&
    b.status != "CANCELED" &&
    roomMatches room b)

/-- The occupied-nights fold of `getOccupancyReport` (reportResolvers.ts
36-48): `start = checkIn > startDate ? checkIn : startDate`,
`end = checkOut < endDate ? checkOut : endDate`, add `max(0, end - start)`
in whole days. -/
def serverOccupiedNights (rows : List Booking) (room : Option String)
    (startD endD : ℤ) : ℤ :=
  ((serverOccupancyQuery rows room startD endD).map (fun b =>
    let s := if startD < b.checkIn then b.checkIn else startD
    let e := if b.checkOut < endD then b.checkOut else endD
    max 0 (e - s))).sum

/-- `daysInMonth * (room ? 1 : 5); // 5 default rooms`
(reportResolvers.ts line 50). -/
def serverTotalNights (daysInMonth : ℕ) (room : Option String) : ℤ :=
  (daysInMonth : ℤ) * (match room with | none => 5 | some _ => 1)

structure OccupancyReport where
  totalNights : ℤ
  occupiedNights : ℤ
  occupancyRate : ℚ
deriving DecidableEq, Repr

/-- `getOccupancyReport` (reportResolvers.ts 6-60) for a valid month
`1 ≤ month ≤ 12`: `startDate = new Date(year, month-1, 1)`,
`endDate = new Date(year, month, 0)` (the month's last day). -/
def getOccupancyReport (rows : List Booking) (room : Option String)
    (year month : ℕ) : OccupancyReport :=
  let startD := toDayNumber ⟨year, month, 1⟩
  let endD := toDayNumber ⟨year, month, daysInMonthOf year month⟩
  let dim := daysInMonthOf year month
  let occ := serverOccupiedNights rows room startD endD
  let tot := serverTotalNights dim room
  { totalNights := tot
    occupiedNights := occ
    occupancyRate := jsRound2 (if 0 < tot then (occ : ℚ) / ((tot : ℤ) : ℚ) * 100 else 0) }

structure RevenueReport where
  totalRevenue : ℚ
  totalDeposits : ℚ
  totalOutstanding : ℚ
  bookingCount : ℕ
  averageBookingValue : ℚ
deriving DecidableEq, Repr

/-- `getRevenueReport` (reportResolvers.ts 62-102): the Prisma query selects
on `tenantId` and `createdAt ∈ [startDate, endDate]` only — it carries no
condition on `status`. -/
def getRevenueReport (rows : List Booking) (startD endD : ℤ) : RevenueReport :=
  let sel := rows.filter (fun b => decide (startD ≤ b.createdAt) && decide (b.createdAt ≤ endD))
  let rev := (sel.map (fun b => b.totalPrice)).sum
  let dep := (sel.map (fun b => b.deposit)).sum
  let out := (sel.map (fun b => b.remaining)).sum
  let cnt := sel.length
  { totalRevenue := jsRound2 rev
    totalDeposits := jsRound2 dep
    totalOutstanding := jsRound2 out
    bookingCount := cnt
    averageBookingValue := jsRound2 (if 0 < cnt then rev / (cnt : ℚ) else 0) }

/-- The pagination step of `getBookings` (bookingResolvers.ts 92-99):
`take: Math.min(limit, 500), skip: offset` over the sorted, filtered rows. -/
def paginate (rows : List Booking) (limit offset : ℕ) : List Booking :=
  (rows.drop offset).take (min limit 500)

/-- JS `String.prototype.toUpperCase` restricted to the ASCII status strings
the system stores. -/
def toUpperized (s : String) : String := ⟨s.data.map Char.toUpper⟩

/-- `normalizeBooking` on the status field (bookingResolvers.ts 40-45):
`booking.status?.toUpperCase() || 'UPCOMING'` — the empty string is falsy in
JS, so it also falls back to `'UPCOMING'`. -/
def normalizeStatus (stored : Option String) : String :=
  match stored with
  | none => "UPCOMING"
  | some s => if toUpperized s = "" then "UPCOMING" else toUpperized s

/-! ## Derived notions used by the statements -/

/-- Two bookings double-book a room: same room and intersecting half-open
stay intervals. -/
def overlaps (b c : Booking) : Prop :=
  b.room = c.room ∧ b.checkIn < c.checkOut ∧ c.checkIn < b.checkOut

instance (b c : Booking) : Decidable (overlaps b c) := by
  unfold overlaps; infer_instance

/-- The (room, day) cells a booking is charged for inside a month window by
the `clampedNights` summand. -/
def monthCells (realStart monthEnd : ℤ) (b : Booking) : Finset (String × ℤ) :=
  {b.room} ×ˢ Finset.Ico (max b.checkIn realStart) (min b.checkOut monthEnd)

/-! ## Concrete inputs taken from the spec's testable properties -/

/-- The month-boundary booking of the spec: stay `[2026-02-25, 2026-03-05)`,
8 nights. -/
def c1Booking : Booking :=
  { room := "A1", checkIn := toDayNumber ⟨2026, 2, 25⟩, checkOut := toDayNumber ⟨2026, 3, 5⟩
    createdAt := toDayNumber ⟨2026, 2, 20⟩, nights := 8, totalPrice := 800, deposit := 0
    remaining := 800, status := "UPCOMING" }

/-- A canceled stored row (`status` lowercase as written by `createBooking`),
stay `[2026-03-10, 2026-03-13)`, created 2026-03-11, price 100. -/
def c2Booking : Booking :=
  { room := "A1", checkIn := toDayNumber ⟨2026, 3, 10⟩, checkOut := toDayNumber ⟨2026, 3, 13⟩
    createdAt := toDayNumber ⟨2026, 3, 11⟩, nights := 3, totalPrice := 100, deposit := 30
    remaining := 70, status := "canceled" }

/-- A booking staying `[2026-03-01, 2026-03-03)` for 50, used against a
reversed report window. -/
def c3Booking : Booking :=
  { room := "A1", checkIn := toDayNumber ⟨2026, 3, 1⟩, checkOut := toDayNumber ⟨2026, 3, 3⟩
    createdAt := toDayNumber ⟨2026, 1, 5⟩, nights := 2, totalPrice := 50, deposit := 0
    remaining := 50, status := "UPCOMING" }

/-- A booking created 2026-02-10 but staying `[2026-03-10, 2026-03-12)`. -/
def c4Booking : Booking :=
  { room := "A1", checkIn := toDayNumber ⟨2026, 3, 10⟩, checkOut := toDayNumber ⟨2026, 3, 12⟩
    createdAt := toDayNumber ⟨2026, 2, 10⟩, nights := 2, totalPrice := 100, deposit := 0
    remaining := 100, status := "UPCOMING" }

/-- A booking occupying room A1 for all of March 2026. -/
def c6Booking : Booking :=
  { room := "A1", checkIn := toDayNumber ⟨2026, 3, 1⟩, checkOut := toDayNumber ⟨2026, 3, 31⟩
    createdAt := toDayNumber ⟨2026, 2, 1⟩, nights := 30, totalPrice := 100, deposit := 0
    remaining := 100, status := "UPCOMING" }

/-- A ten-night booking on abstract day numbers `[100, 110)`. -/
def c7Booking : Booking :=
  { room := "A1", checkIn := 100, checkOut := 110, createdAt := 90, nights := 10
    totalPrice := 500, deposit := 0, remaining := 500, status := "UPCOMING" }

/-- The half-open-interval booking of the spec: stay `[2026-03-10, 2026-03-13)`. -/
def c8Booking : Booking :=
  { room := "A1", checkIn := toDayNumber ⟨2026, 3, 10⟩, checkOut := toDayNumber ⟨2026, 3, 13⟩
    createdAt := toDayNumber ⟨2026, 3, 1⟩, nights := 3, totalPrice := 300, deposit := 0
    remaining := 300, status := "UPCOMING" }

/-- A one-night booking used to exercise pagination. -/
def c9Booking : Booking :=
  { room := "A1", checkIn := 0, checkOut := 1, createdAt := 0, nights := 1
    totalPrice := 10, deposit := 0, remaining := 10, status := "UPCOMING" }

/-! ## Shared lemmas -/

theorem isOccupied_nil (d : ℤ) : isOccupied [] d = false := rfl

theorem occupiedDays_nil (startD endD : ℤ) : occupiedDays [] startD endD = 0 := by
  unfold occupiedDays
  split
  · simp [isOccupied]
  · rfl

theorem occupancyRate_nil (startD endD : ℤ) : occupancyRate [] startD endD = 0 := by
  unfold occupancyRate
  split
  · rw [occupiedDays_nil]; norm_num
  · rfl

/-- Within one month, the day number is the day-of-month plus a constant, so
the inclusive span from the first to the `d`-th day is `d` days. -/
theorem toDayNumber_same_month (y m d : ℕ) :
    toDayNumber ⟨y, m, d⟩ - toDayNumber ⟨y, m, 1⟩ + 1 = d := by
  unfold toDayNumber
  push_cast
  omega

theorem daysInMonthOf_pos (y m : ℕ) : 0 < daysInMonthOf y m := by
  unfold daysInMonthOf
  split
  · split <;> norm_num
  · split <;> norm_num

theorem clampedNights_nonneg (realStart monthEnd : ℤ) (b : Booking) :
    0 ≤ clampedNights realStart monthEnd b :=
  le_max_left 0 _

theorem monthOccupancy_nonneg (bookings : List Booking) (filter : Option String)
    (realStart monthEnd : ℤ) :
    0 ≤ monthOccupancy bookings filter realStart monthEnd := by
  apply List.sum_nonneg
  intro x hx
  rw [List.mem_map] at hx
  obtain ⟨b, _, rfl⟩ := hx
  exact clampedNights_nonneg realStart monthEnd b

theorem roomCount_nonneg (filter : Option String) (rooms : List String) :
    0 ≤ roomCount filter rooms := by
  cases filter <;> simp [roomCount]

theorem fillRate_nonneg (bookings : List Booking) (filter : Option String)
    (rooms : List String) (realStart monthEnd : ℤ) :
    0 ≤ fillRate bookings filter rooms realStart monthEnd := by
  unfold fillRate
  split
  case isTrue h =>
    apply mul_nonneg _ (by norm_num)
    apply div_nonneg
    · exact_mod_cast monthOccupancy_nonneg bookings filter realStart monthEnd
    · apply mul_nonneg
      · exact_mod_cast h.le
      · exact_mod_cast roomCount_nonneg filter rooms
  case isFalse h => exact le_refl 0

/-- The number of (room, day) cells a booking is charged for equals its
`clampedNights` summand. -/
theorem monthCells_card (realStart monthEnd : ℤ) (b : Booking) :
    ((monthCells realStart monthEnd b).card : ℤ) = clampedNights realStart monthEnd b := by
  unfold monthCells clampedNights
  rw [Finset.card_product, Finset.card_singleton, one_mul, Int.card_Ico, Int.toNat_eq_max]
  simp only [max_def, min_def]
  split_ifs <;> omega

/-- Bookings that do not double-book a room occupy disjoint cell sets. -/
theorem monthCells_disjoint (realStart monthEnd : ℤ) {b c : Booking}
    (h : ¬ overlaps b c) :
    Disjoint (monthCells realStart monthEnd b) (monthCells realStart monthEnd c) := by
  rw [Finset.disjoint_left]
  rintro ⟨r, d⟩ hb hc
  simp only [monthCells, Finset.mem_product, Finset.mem_singleton, Finset.mem_Ico] at hb hc
  obtain ⟨hbr, hbd⟩ := hb
  obtain ⟨hcr, hcd⟩ := hc
  apply h
  refine ⟨by rw [← hbr, ← hcr], ?_, ?_⟩
  · have h1 : b.checkIn ≤ d := le_trans (le_max_left _ _) hbd.1
    have h2 : d < c.checkOut := lt_of_lt_of_le hcd.2 (min_le_left _ _)
    omega
  · have h1 : c.checkIn ≤ d := le_trans (le_max_left _ _) hcd.1
    have h2 : d < b.checkOut := lt_of_lt_of_le hbd.2 (min_le_left _ _)
    omega

/-- Pairwise disjoint subsets of `U` cannot hold more elements than `U`. -/
theorem sum_card_le_card {α : Type} [DecidableEq α] :
    ∀ (l : List (Finset α)) (U : Finset α), (∀ s ∈ l, s ⊆ U) → l.Pairwise Disjoint →
      (l.map Finset.card).sum ≤ U.card := by
  intro l
  induction l with
  | nil => intro U _ _; simp
  | cons a t ih =>
      intro U hsub hpw
      rw [List.map_cons, List.sum_cons]
      obtain ⟨hdisj, htail⟩ := List.pairwise_cons.mp hpw
      have hsubt : ∀ s ∈ t, s ⊆ U \ a := by
        intro s hs
        rw [Finset.subset_sdiff]
        exact ⟨hsub s (List.mem_cons_of_mem a hs), (hdisj s hs).symm⟩
      have hle := ih (U \ a) hsubt htail
      have haU : a ⊆ U := hsub a (List.mem_cons_self a t)
      have hcard : (U \ a).card = U.card - a.card := Finset.card_sdiff haU
      have hac : a.card ≤ U.card := Finset.card_le_card haU
      omega

theorem roomCount_eq_length (filter : Option String) (rooms : List String) :
    roomCount filter rooms = ((candidateRooms filter rooms).length : ℤ) := by
  cases filter <;> simp [roomCount, candidateRooms]

/-- Every booking kept by the month filter has its room among the candidate
rooms, given that all bookings use configured rooms. -/
theorem monthBookings_room_mem (bookings : List Booking) (filter : Option String)
    (rooms : List String) (realStart monthEnd : ℤ)
    (hrooms : ∀ b ∈ bookings, b.room ∈ rooms) :
    ∀ b ∈ monthBookings bookings filter realStart monthEnd,
      b.room ∈ candidateRooms filter rooms := by
  intro b hb
  rw [monthBookings, List.mem_filter] at hb
  cases filter with
  | none => exact hrooms b hb.1
  | some r =>
      have h2 := hb.2
      simp only [Bool.and_eq_true, roomMatches, beq_iff_eq] at h2
      rw [h2.2]
      exact List.mem_singleton.mpr rfl

/-- Every booking kept by the month filter is non-canceled. -/
theorem monthBookings_not_canceled (bookings : List Booking) (filter : Option String)
    (realStart monthEnd : ℤ) :
    ∀ b ∈ monthBookings bookings filter realStart monthEnd, b.status ≠ "CANCELED" := by
  intro b hb
  rw [monthBookings, List.mem_filter] at hb
  have h2 := hb.2
  simp only [Bool.and_eq_true, bne_iff_ne, ne_eq] at h2
  exact h2.1.1.1

/-- Without double bookings among the non-canceled bookings of configured
rooms, a month cannot absorb more clamped nights than
`(candidate rooms) × (days strictly inside the window)`. -/
theorem monthOccupancy_bound (bookings : List Booking) (filter : Option String)
    (rooms : List String) (realStart monthEnd : ℤ)
    (hdisj : bookings.Pairwise (fun x y =>
      x.status ≠ "CANCELED" → y.status ≠ "CANCELED" → ¬ overlaps x y))
    (hrooms : ∀ b ∈ bookings, b.room ∈ rooms) :
    monthOccupancy bookings filter realStart monthEnd
      ≤ roomCount filter rooms * max 0 (monthEnd - realStart) := by
  have hsub : (monthBookings bookings filter realStart monthEnd).Sublist bookings :=
    List.filter_sublist bookings
  have hnc := monthBookings_not_canceled bookings filter realStart monthEnd
  have hpw : (monthBookings bookings filter realStart monthEnd).Pairwise
      (fun b c => ¬ overlaps b c) :=
    (hdisj.sublist hsub).imp_of_mem (fun hx hy hxy => hxy (hnc _ hx) (hnc _ hy))
  have hmem := monthBookings_room_mem bookings filter rooms realStart monthEnd hrooms
  have hcells_sub : ∀ s ∈ (monthBookings bookings filter realStart monthEnd).map
        (monthCells realStart monthEnd),
      s ⊆ (candidateRooms filter rooms).toFinset ×ˢ Finset.Ico realStart monthEnd := by
    intro s hs
    rw [List.mem_map] at hs
    obtain ⟨b, hb, rfl⟩ := hs
    unfold monthCells
    apply Finset.product_subset_product
    · rw [Finset.singleton_subset_iff, List.mem_toFinset]
      exact hmem b hb
    · exact Finset.Ico_subset_Ico (le_max_right _ _) (min_le_right _ _)
  have hcellpw : ((monthBookings bookings filter realStart monthEnd).map
      (monthCells realStart monthEnd)).Pairwise Disjoint := by
    rw [List.pairwise_map]
    exact hpw.imp (fun h => monthCells_disjoint realStart monthEnd h)
  have hsum := sum_card_le_card
    ((monthBookings bookings filter realStart monthEnd).map (monthCells realStart monthEnd))
    ((candidateRooms filter rooms).toFinset ×ˢ Finset.Ico realStart monthEnd)
    hcells_sub hcellpw
  have hocc : monthOccupancy bookings filter realStart monthEnd
      = ((((monthBookings bookings filter realStart monthEnd).map
            (monthCells realStart monthEnd)).map Finset.card).sum : ℕ) := by
    rw [monthOccupancy, List.map_map, Nat.cast_list_sum, List.map_map]
    refine congrArg List.sum (List.map_congr_left ?_)
    intro b _
    exact (monthCells_card realStart monthEnd b).symm
  have hcard : (((candidateRooms filter rooms).toFinset ×ˢ
        Finset.Ico realStart monthEnd).card : ℤ)
      ≤ roomCount filter rooms * max 0 (monthEnd - realStart) := by
    rw [Finset.card_product, Int.card_Ico, roomCount_eq_length]
    push_cast
    have h1 : ((candidateRooms filter rooms).toFinset.card : ℤ)
        ≤ ((candidateRooms filter rooms).length : ℤ) := by
      exact_mod_cast List.toFinset_card_le (candidateRooms filter rooms)
    have h2 : (((monthEnd - realStart).toNat : ℕ) : ℤ) = max 0 (monthEnd - realStart) := by
      rw [Int.toNat_eq_max]
      exact max_comm _ _
    rw [h2]
    exact mul_le_mul_of_nonneg_right h1 (le_max_left _ _)
  rw [hocc]
  calc ((((monthBookings bookings filter realStart monthEnd).map
        (monthCells realStart monthEnd)).map Finset.card).sum : ℤ)
      ≤ (((candidateRooms filter rooms).toFinset ×ˢ
          Finset.Ico realStart monthEnd).card : ℤ) := by exact_mod_cast hsum
    _ ≤ roomCount filter rooms * max 0 (monthEnd - realStart) := hcard

/-- Without double bookings among non-canceled bookings on configured rooms
the fill rate never exceeds 100. -/
theorem fillRate_le_100 (bookings : List Booking) (filter : Option String)
    (rooms : List String) (realStart monthEnd : ℤ)
    (hdisj : bookings.Pairwise (fun x y =>
      x.status ≠ "CANCELED" → y.status ≠ "CANCELED" → ¬ overlaps x y))
    (hrooms : ∀ b ∈ bookings, b.room ∈ rooms) :
    fillRate bookings filter rooms realStart monthEnd ≤ 100 := by
  unfold fillRate
  split
  case isFalse h => norm_num
  case isTrue h =>
    have h0 := monthOccupancy_nonneg bookings filter realStart monthEnd
    have hb := monthOccupancy_bound bookings filter rooms realStart monthEnd hdisj hrooms
    have hrc0 := roomCount_nonneg filter rooms
    rcases eq_or_lt_of_le hrc0 with heq | hpos
    · have hocc0 : monthOccupancy bookings filter realStart monthEnd = 0 := by
        apply le_antisymm _ h0
        calc monthOccupancy bookings filter realStart monthEnd
            ≤ roomCount filter rooms * max 0 (monthEnd - realStart) := hb
          _ = 0 := by rw [← heq, zero_mul]
      rw [hocc0]
      norm_num
    · have hoccle : monthOccupancy bookings filter realStart monthEnd
          ≤ (monthEnd - realStart + 1) * roomCount filter rooms := by
        have hmax : max 0 (monthEnd - realStart) ≤ monthEnd - realStart + 1 := by omega
        calc monthOccupancy bookings filter realStart monthEnd
            ≤ roomCount filter rooms * max 0 (monthEnd - realStart) := hb
          _ ≤ roomCount filter rooms * (monthEnd - realStart + 1) :=
              mul_le_mul_of_nonneg_left hmax hrc0
          _ = (monthEnd - realStart + 1) * roomCount filter rooms := mul_comm _ _
      have hd : (0 : ℚ) < ((monthEnd - realStart + 1 : ℤ) : ℚ) * ((roomCount filter rooms : ℤ) : ℚ) := by
        apply mul_pos
        · exact_mod_cast h
        · exact_mod_cast hpos
      rw [div_mul_eq_mul_div, div_le_iff₀ hd]
      have hc : (monthOccupancy bookings filter realStart monthEnd : ℚ)
          ≤ ((monthEnd - realStart + 1 : ℤ) : ℚ) * ((roomCount filter rooms : ℤ) : ℚ) := by
        exact_mod_cast hoccle
      nlinarith

/-! ## C8 -/

/-- C8: a day is counted occupied by a booking exactly when
`checkIn ≤ day < checkOut`; the booking `[2026-03-10, 2026-03-13)` occupies
March 10, 11 and 12 but neither March 13 nor March 9. -/
theorem half_open_interval_occupancy :
    (∀ (b : Booking) (d : ℤ), isOccupied [b] d = true ↔ b.checkIn ≤ d ∧ d < b.checkOut)
    ∧ isOccupied [c8Booking] (toDayNumber ⟨2026, 3, 10⟩) = true
    ∧ isOccupied [c8Booking] (toDayNumber ⟨2026, 3, 11⟩) = true
    ∧ isOccupied [c8Booking] (toDayNumber ⟨2026, 3, 12⟩) = true
    ∧ isOccupied [c8Booking] (toDayNumber ⟨2026, 3, 13⟩) = false
    ∧ isOccupied [c8Booking] (toDayNumber ⟨2026, 3, 9⟩) = false := by
  refine ⟨fun b d => ?_, by decide, by decide, by decide, by decide, by decide⟩
  simp [isOccupied]

/-! ## C1 -/

/-- C1: the failing input of the month-boundary claim.  Both report paths
clamp the exclusive `checkOut` to the month's inclusive last day, so the
booking `[2026-02-25, 2026-03-05)` is charged 3 nights (not 4) in February,
4 in March, and the per-month contributions sum to 7, not to its
`nights = 8`. -/
theorem month_boundary_off_by_one :
    monthOccupancy [c1Booking] none (toDayNumber ⟨2026, 2, 1⟩) (toDayNumber ⟨2026, 2, 28⟩) = 3
    ∧ monthOccupancy [c1Booking] none (toDayNumber ⟨2026, 3, 1⟩) (toDayNumber ⟨2026, 3, 31⟩) = 4
    ∧ serverOccupiedNights [c1Booking] none (toDayNumber ⟨2026, 2, 1⟩) (toDayNumber ⟨2026, 2, 28⟩) = 3
    ∧ serverOccupiedNights [c1Booking] none (toDayNumber ⟨2026, 3, 1⟩) (toDayNumber ⟨2026, 3, 31⟩) = 4
    ∧ c1Booking.nights = 8
    ∧ (3 : ℤ) + 4 ≠ 8 := by
  decide

/-! ## C2 -/

/-- C2: the failing input of the cancellation-exclusion claim.  The server
revenue report's query has no status condition, so a canceled booking created
inside the window contributes its full `totalPrice`, `deposit` and
`remaining`; moreover the occupancy query's `status ≠ 'CANCELED'` filter
compares against the stored lowercase string and also keeps the row. -/
theorem canceled_counted_by_server_reports :
    (getRevenueReport [c2Booking] (toDayNumber ⟨2026, 3, 1⟩) (toDayNumber ⟨2026, 3, 31⟩)).totalRevenue = 100
    ∧ (getRevenueReport [c2Booking] (toDayNumber ⟨2026, 3, 1⟩) (toDayNumber ⟨2026, 3, 31⟩)).bookingCount = 1
    ∧ serverOccupancyQuery [c2Booking] none (toDayNumber ⟨2026, 3, 1⟩) (toDayNumber ⟨2026, 3, 31⟩)
        = [c2Booking]
    ∧ normalizeStatus (some c2Booking.status) = "CANCELED"
    ∧ (100 : ℚ) ≠ 0 := by
  have hsel : [c2Booking].filter (fun b =>
      decide (toDayNumber ⟨2026, 3, 1⟩ ≤ b.createdAt) &&
      decide (b.createdAt ≤ toDayNumber ⟨2026, 3, 31⟩)) = [c2Booking] := by
    decide
  refine ⟨?_, ?_, by decide, by decide, by norm_num⟩
  · simp only [getRevenueReport, hsel, List.map_cons, List.map_nil, List.sum_cons,
      List.sum_nil, add_zero]
    norm_num [jsRound2, c2Booking]
  · simp only [getRevenueReport, hsel, List.length_cons, List.length_nil]

/-! ## C3 -/

/-- C3 counterexample: for the reversed window `[2026-03-15, 2026-02-10]`
the aggregator does not return an empty result set: it emits two month
buckets (March and February, descending), and with a booking staying
`[2026-03-01, 2026-03-03)` for 50 the March bucket carries revenue 50. -/
theorem reversed_window_not_empty :
    (reportData [c3Booking] .stay ⟨2026, 3, 15⟩ ⟨2026, 2, 10⟩ none ["A1"]).monthlyStats.length = 2
    ∧ (reportData [c3Booking] .stay ⟨2026, 3, 15⟩ ⟨2026, 2, 10⟩ none ["A1"]).monthlyStats.head?
        = some (monthStat [c3Booking] none ["A1"] (2026, 3))
    ∧ (monthStat [c3Booking] none ["A1"] (2026, 3)).revenue = 50
    ∧ (50 : ℚ) ≠ 0 := by
  have hm : monthsOfInterval ⟨2026, 3, 15⟩ ⟨2026, 2, 10⟩ = [(2026, 3), (2026, 2)] := by decide
  have hmar : monthBookings [c3Booking] none (toDayNumber ⟨2026, 3, 1⟩)
      (toDayNumber ⟨2026, 3, 31⟩) = [c3Booking] := by decide
  have hq : [c3Booking].filter (fun b =>
      decide (toDayNumber ⟨2026, 3, 1⟩ ≤ b.checkIn) &&
      decide (b.checkIn ≤ toDayNumber ⟨2026, 3, 31⟩)) = [c3Booking] := by decide
  refine ⟨?_, ?_, ?_, by norm_num⟩
  · simp only [reportData, hm, List.map_cons, List.map_nil, List.length_cons, List.length_nil]
  · simp only [reportData, hm, List.map_cons, List.map_nil, List.head?_cons]
  · simp only [monthStat, monthRevenue]
    norm_num [daysInMonthOf, isLeap]
    rw [hmar, hq]
    simp [c3Booking]

/-- C3 (amended): a reversed report window is not detected: the per-room
statistics and grand totals are all zero (the basis filter matches nothing
and the occupancy day loop does not run), but the aggregator does not return
an empty result set — `eachMonthOfInterval` still yields one bucket per month
between the two endpoints (descending under the modelled date-fns v3+
semantics; date-fns v2 raises a RangeError instead), and those buckets can
carry nonzero revenue. -/
theorem reversed_window_behavior (bookings : List Booking) (rt : ReportType)
    (a b : CalDate) (filter : Option String) (rooms : List String)
    (h : toDayNumber b < toDayNumber a) :
    (reportData bookings rt a b filter rooms).totalRevenue = 0
    ∧ (reportData bookings rt a b filter rooms).totalNights = 0
    ∧ (reportData bookings rt a b filter rooms).bookingCount = 0
    ∧ (∀ s ∈ (reportData bookings rt a b filter rooms).roomStats,
        s.totalNights = 0 ∧ s.totalRevenue = 0 ∧ s.occupancyRate = 0)
    ∧ (reportData bookings rt a b filter rooms).monthlyStats.length
        = monthIndex (a.year, a.month) + 1 - monthIndex (b.year, b.month) := by
  have hfil : reportFiltered bookings rt (toDayNumber a) (toDayNumber b) filter = [] := by
    rw [reportFiltered, List.filter_eq_nil_iff]
    intro x _ hcon
    simp only [Bool.and_eq_true, decide_eq_true_eq] at hcon
    have h1 := hcon.1.1.2
    have h2 := hcon.1.2
    omega
  refine ⟨?_, ?_, ?_, ?_, ?_⟩
  · simp [reportData, hfil]
  · simp [reportData, hfil]
  · simp [reportData, hfil]
  · intro s hs
    simp only [reportData, hfil, List.mem_map] at hs
    obtain ⟨r, _, rfl⟩ := hs
    refine ⟨?_, ?_, ?_⟩
    · simp [roomStat]
    · simp [roomStat]
    · simp [roomStat, occupancyRate_nil]
  · simp only [reportData, List.length_map, monthsOfInterval, if_neg (not_le.mpr h),
      List.length_reverse, monthsAsc, List.length_map, List.length_range]

/-- C3 witness: the amended reversed-window behavior at the concrete window
`[2026-03-15, 2026-02-10]`. -/
theorem reversed_window_behavior_witness :
    (reportData [] .stay ⟨2026, 3, 15⟩ ⟨2026, 2, 10⟩ none ["A1"]).monthlyStats.length
      = monthIndex (2026, 3) + 1 - monthIndex (2026, 2) :=
  (reversed_window_behavior [] .stay ⟨2026, 3, 15⟩ ⟨2026, 2, 10⟩ none ["A1"] (by decide)).2.2.2.2

/-! ## C4 -/

/-- C4 counterexample: with basis `CREATED`, a booking created on 2026-02-10
but staying in March contributes nothing to February's revenue bucket — the
monthly revenue fold uses `b.checkIn` for both bases, so the whole price lands
in March. -/
theorem created_basis_ignored_by_month_revenue :
    (monthStat [c4Booking] none ["A1"] (2026, 2)).revenue = 0
    ∧ (monthStat [c4Booking] none ["A1"] (2026, 3)).revenue = 100
    ∧ (reportData [c4Booking] .created ⟨2026, 2, 1⟩ ⟨2026, 3, 31⟩ none ["A1"]).monthlyStats
        = [monthStat [c4Booking] none ["A1"] (2026, 2), monthStat [c4Booking] none ["A1"] (2026, 3)]
    ∧ toDayNumber ⟨2026, 2, 1⟩ ≤ c4Booking.createdAt
    ∧ c4Booking.createdAt ≤ toDayNumber ⟨2026, 2, 28⟩
    ∧ c4Booking.totalPrice = 100
    ∧ (0 : ℚ) ≠ 100 := by
  have hm : monthsOfInterval ⟨2026, 2, 1⟩ ⟨2026, 3, 31⟩ = [(2026, 2), (2026, 3)] := by decide
  have hfeb : monthBookings [c4Booking] none (toDayNumber ⟨2026, 2, 1⟩)
      (toDayNumber ⟨2026, 2, 28⟩) = [] := by decide
  have hmar : monthBookings [c4Booking] none (toDayNumber ⟨2026, 3, 1⟩)
      (toDayNumber ⟨2026, 3, 31⟩) = [c4Booking] := by decide
  have hq : [c4Booking].filter (fun b =>
      decide (toDayNumber ⟨2026, 3, 1⟩ ≤ b.checkIn) &&
      decide (b.checkIn ≤ toDayNumber ⟨2026, 3, 31⟩)) = [c4Booking] := by decide
  refine ⟨?_, ?_, ?_, by decide, by decide, rfl, by norm_num⟩
  · simp [monthStat, monthRevenue, daysInMonthOf, isLeap, hfeb]
  · simp only [monthStat, monthRevenue]
    norm_num [daysInMonthOf, isLeap]
    rw [hmar, hq]
    simp [c4Booking]
  · simp only [reportData, hm, List.map_cons, List.map_nil]

/-- C4 (amended): for both report bases, a month's revenue is the sum of
`totalPrice` over the non-canceled, room-matching bookings whose `checkIn`
falls inside that month. -/
theorem month_revenue_by_checkin (bookings : List Booking) (filter : Option String)
    (realStart monthEnd : ℤ) (hvalid : ∀ b ∈ bookings, b.checkIn < b.checkOut) :
    monthRevenue bookings filter realStart monthEnd
      = ((bookings.filter (fun b =>
            b.status != "CANCELED" && roomMatches filter b &&
            decide (realStart ≤ b.checkIn) && decide (b.checkIn ≤ monthEnd))).map
          (fun b => b.totalPrice)).sum := by
  unfold monthRevenue monthBookings
  rw [List.filter_filter]
  refine congrArg List.sum
    (congrArg (List.map (fun b : Booking => b.totalPrice)) (List.filter_congr ?_))
  intro b hb
  have h := hvalid b hb
  rw [Bool.eq_iff_iff]
  simp only [Bool.and_eq_true, decide_eq_true_eq]
  exact ⟨fun ⟨⟨hE, hF⟩, ⟨⟨hA, _⟩, _⟩, hD⟩ => ⟨⟨⟨hA, hD⟩, hE⟩, hF⟩,
    fun ⟨⟨⟨hA, hD⟩, hE⟩, hF⟩ => ⟨⟨hE, hF⟩, ⟨⟨hA, hF⟩, lt_of_le_of_lt hE h⟩, hD⟩⟩

/-- C4 witness: the amended monthly-revenue characterization at the concrete
March 2026 inputs. -/
theorem month_revenue_by_checkin_witness :
    monthRevenue [c4Booking] none (toDayNumber ⟨2026, 3, 1⟩) (toDayNumber ⟨2026, 3, 31⟩)
      = (([c4Booking].filter (fun b =>
            b.status != "CANCELED" && roomMatches none b &&
            decide (toDayNumber ⟨2026, 3, 1⟩ ≤ b.checkIn) &&
            decide (b.checkIn ≤ toDayNumber ⟨2026, 3, 31⟩))).map
          (fun b => b.totalPrice)).sum :=
  month_revenue_by_checkin [c4Booking] none (toDayNumber ⟨2026, 3, 1⟩)
    (toDayNumber ⟨2026, 3, 31⟩) (by decide)

/-! ## C5 -/

/-- C5 counterexample: the server occupancy denominator is hardwired to 5
rooms for the unfiltered case (`daysInMonth * (room ? 1 : 5)`), so for a
tenant configured with 3 rooms the claimed `daysInMonth * roomCount` value
`31 * 3 = 93` is not what the resolver produces for March. -/
theorem server_room_count_hardcoded :
    (getOccupancyReport [] none 2026 3).totalNights = 155
    ∧ (155 : ℤ) ≠ 31 * 3 := by
  decide

/-- C5 (amended): the client fill-rate denominator is
`daysInMonth(M) * roomCount` with `roomCount = rooms.length` for `ALL` and
`1` for a specific room; the server denominator uses `1` when a room is
filtered but a hardcoded `5` (not the tenant's configured room count)
otherwise. -/
theorem fill_rate_denominator (bookings : List Booking) (filter : Option String)
    (rooms : List String) (y m : ℕ) (rows : List Booking) (sroom : Option String) :
    (monthStat bookings filter rooms (y, m)).fillRate
      = (monthOccupancy bookings filter (toDayNumber ⟨y, m, 1⟩)
            (toDayNumber ⟨y, m, daysInMonthOf y m⟩) : ℚ)
          / (((daysInMonthOf y m : ℕ) : ℚ) * ((roomCount filter rooms : ℤ) : ℚ)) * 100
    ∧ (getOccupancyReport rows sroom y m).totalNights
      = ((daysInMonthOf y m : ℕ) : ℤ) * (match sroom with | none => 5 | some _ => 1) := by
  constructor
  · have hdim := toDayNumber_same_month y m (daysInMonthOf y m)
    have hpos : (0 : ℤ) < toDayNumber ⟨y, m, daysInMonthOf y m⟩ - toDayNumber ⟨y, m, 1⟩ + 1 := by
      rw [hdim]
      exact_mod_cast daysInMonthOf_pos y m
    simp only [monthStat, fillRate]
    rw [if_pos hpos]
    have hc : ((toDayNumber ⟨y, m, daysInMonthOf y m⟩ - toDayNumber ⟨y, m, 1⟩ + 1 : ℤ) : ℚ)
        = ((daysInMonthOf y m : ℕ) : ℚ) := by
      rw [hdim]
      push_cast
      ring
    rw [hc]
  · cases sroom <;> rfl

/-! ## C6 -/

/-- C6 counterexample: two identical non-canceled bookings — a double booking
the system does not prevent — filling March 2026 on a single filtered room
push that month's fill rate to `6000/31 ≈ 193.5`, outside `[0, 100]`. -/
theorem fill_rate_above_100 :
    ((reportData [c6Booking, c6Booking] .stay ⟨2026, 3, 1⟩ ⟨2026, 3, 31⟩
        (some "A1") ["A1"]).monthlyStats.map (fun st => st.fillRate)) = [6000 / 31]
    ∧ ¬ ((6000 / 31 : ℚ) ≤ 100) := by
  have hm : monthsOfInterval ⟨2026, 3, 1⟩ ⟨2026, 3, 31⟩ = [(2026, 3)] := by decide
  have hocc : monthOccupancy [c6Booking, c6Booking] (some "A1") (toDayNumber ⟨2026, 3, 1⟩)
      (toDayNumber ⟨2026, 3, 31⟩) = 60 := by decide
  have ht : toDayNumber ⟨2026, 3, 31⟩ - toDayNumber ⟨2026, 3, 1⟩ + 1 = 31 := by decide
  refine ⟨?_, by norm_num⟩
  simp only [reportData, hm, List.map_cons, List.map_nil, monthStat]
  norm_num [daysInMonthOf, isLeap]
  rw [fillRate, ht, hocc]
  norm_num [roomCount]

/-- C6 (amended): every per-month report entry's fill rate is at least 0;
and it is at most 100 provided no two non-canceled bookings overlap in time
on the same room (the double-booking shape the system admits is exactly what
drives it above 100) and every booking uses one of the tenant's configured
rooms. -/
theorem fill_rate_range (bookings : List Booking) (rt : ReportType)
    (a b : CalDate) (filter : Option String) (rooms : List String)
    (st : MonthStat)
    (hst : st ∈ (reportData bookings rt a b filter rooms).monthlyStats) :
    0 ≤ st.fillRate
    ∧ (bookings.Pairwise (fun x y =>
          x.status ≠ "CANCELED" → y.status ≠ "CANCELED" → ¬ overlaps x y) →
        (∀ bk ∈ bookings, bk.room ∈ rooms) → st.fillRate ≤ 100) := by
  simp only [reportData, List.mem_map] at hst
  obtain ⟨ym, _, rfl⟩ := hst
  obtain ⟨y, m⟩ := ym
  simp only [monthStat]
  exact ⟨fillRate_nonneg bookings filter rooms _ _,
    fun h1 h2 => fillRate_le_100 bookings filter rooms _ _ h1 h2⟩

/-- C6 witness: a single valid booking on one configured room keeps the
March 2026 fill rate inside `[0, 100]`. -/
theorem fill_rate_range_witness :
    0 ≤ (monthStat [c6Booking] (some "A1") ["A1"] (2026, 3)).fillRate
    ∧ (monthStat [c6Booking] (some "A1") ["A1"] (2026, 3)).fillRate ≤ 100 := by
  have hm : (reportData [c6Booking] .stay ⟨2026, 3, 1⟩ ⟨2026, 3, 31⟩
      (some "A1") ["A1"]).monthlyStats = [monthStat [c6Booking] (some "A1") ["A1"] (2026, 3)] := by
    simp only [reportData]
    rw [show monthsOfInterval ⟨2026, 3, 1⟩ ⟨2026, 3, 31⟩ = [(2026, 3)] from by decide]
    simp only [List.map_cons, List.map_nil]
  have h := fill_rate_range [c6Booking] .stay ⟨2026, 3, 1⟩ ⟨2026, 3, 31⟩ (some "A1") ["A1"]
    (monthStat [c6Booking] (some "A1") ["A1"] (2026, 3))
    (by rw [hm]; exact List.mem_singleton.mpr rfl)
  refine ⟨h.1, h.2 ?_ ?_⟩
  · simp [List.pairwise_singleton]
  · intro bk hbk
    rw [List.mem_singleton] at hbk
    rw [hbk]
    simp [c6Booking]

/-! ## C7 -/

/-- C7: the per-room occupancy rate equals
`occupiedDays / ((rangeEnd - rangeStart) + 1) * 100`, is `0` when the
inclusive day count is non-positive, is `0` for a room with no bookings, and
is exactly `100` for one booking covering the inclusive window exactly. -/
theorem occupancy_rate_formula (roomBookings : List Booking) (startD endD : ℤ) :
    (0 < endD - startD + 1 →
      occupancyRate roomBookings startD endD
        = (occupiedDays roomBookings startD endD : ℚ) / ((endD - startD + 1 : ℤ) : ℚ) * 100)
    ∧ (endD - startD + 1 ≤ 0 → occupancyRate roomBookings startD endD = 0)
    ∧ occupancyRate [] startD endD = 0
    ∧ (∀ b : Booking, b.checkIn = startD → b.checkOut = endD + 1 → startD ≤ endD →
        occupancyRate [b] startD endD = 100) := by
  refine ⟨fun h => ?_, fun h => ?_, occupancyRate_nil startD endD, fun b hb1 hb2 h => ?_⟩
  · rw [occupancyRate, if_pos h]
  · rw [occupancyRate, if_neg (not_lt.mpr h)]
  · have hn : (0 : ℤ) < endD - startD + 1 := by omega
    rw [occupancyRate, if_pos hn, occupiedDays, if_pos hn]
    have hfull : (List.range (endD - startD + 1).toNat).filter
        (fun i : ℕ => isOccupied [b] (startD + (i : ℤ))) = List.range (endD - startD + 1).toNat := by
      apply List.filter_eq_self.mpr
      intro i hi
      rw [List.mem_range] at hi
      simp only [isOccupied, List.any_cons, List.any_nil, Bool.or_false, Bool.and_eq_true,
        decide_eq_true_eq, hb1, hb2]
      omega
    rw [hfull, List.length_range]
    have hcast : (((endD - startD + 1).toNat : ℕ) : ℚ) = ((endD - startD + 1 : ℤ) : ℚ) := by
      rw [← Int.cast_natCast, Int.toNat_of_nonneg hn.le]
    have hne : ((endD - startD + 1 : ℤ) : ℚ) ≠ 0 := by
      exact_mod_cast hn.ne'
    rw [hcast, div_self hne, one_mul]

/-- C7 witness: a booking `[100, 110)` over the inclusive window `[100, 109]`
yields exactly 100. -/
theorem occupancy_rate_formula_witness :
    occupancyRate [c7Booking] 100 109 = 100 :=
  (occupancy_rate_formula [c7Booking] 100 109).2.2.2 c7Booking rfl (by decide) (by decide)

/-! ## C9 -/

/-- C9 counterexample: with 501 matching rows and a requested page size of
501, the claimed slice semantics promise `min 501 (501 - 0) = 501` rows, but
`getBookings` caps `take` at 500. -/
theorem pagination_cap_counterexample :
    ¬ ((paginate (List.replicate 501 c9Booking) 501 0).length
        = min 501 ((List.replicate 501 c9Booking).length - 0)) := by
  intro h
  rw [paginate, List.length_take, List.length_drop, List.length_replicate] at h
  omega

/-- C9 (amended): `getBookings` returns the slice
`bookings[offset : offset + min(pageSize, 500)]`, so the result has
`min (min pageSize 500) (length - offset)` elements, and an offset at or
beyond the list length yields the empty list without an error. -/
theorem pagination_slice (rows : List Booking) (limit offset : ℕ) :
    (paginate rows limit offset).length = min (min limit 500) (rows.length - offset)
    ∧ (rows.length ≤ offset → paginate rows limit offset = []) := by
  constructor
  · simp [paginate]
  · intro h
    simp [paginate, List.drop_eq_nil_of_le h]

/-- C9 witness: the amended slice semantics at a concrete out-of-range
offset. -/
theorem pagination_slice_witness :
    paginate [c9Booking] 2 3 = [] :=
  (pagination_slice [c9Booking] 2 3).2 (by decide)

/-! ## C10 -/

theorem toUpperized_eq_empty_iff (s : String) : toUpperized s = "" ↔ s = "" := by
  obtain ⟨l⟩ := s
  constructor
  · intro h
    have hl : l.map Char.toUpper = [] := congrArg String.data h
    have : l = [] := List.map_eq_nil_iff.mp hl
    rw [this]
  · intro h
    rw [h]
    rfl

/-- C10: every booking returned by the query resolvers carries
`status = toUpperCase(stored status)`, with `UPCOMING` as the default for an
absent status; the system's own write paths never store the empty string, so
the JS falsy fallback does not interfere. -/
theorem status_normalized_at_query_boundary (stored : Option String)
    (h : stored ≠ some "") :
    normalizeStatus stored = (stored.map toUpperized).getD "UPCOMING" := by
  cases stored with
  | none => rfl
  | some s =>
      have hs : s ≠ "" := fun he => h (by rw [he])
      have : toUpperized s ≠ "" := fun he => hs ((toUpperized_eq_empty_iff s).mp he)
      simp [normalizeStatus, this]

/-- C10 witness: the stored lowercase `'canceled'` comes back as
`'CANCELED'`. -/
theorem status_normalized_at_query_boundary_witness :
    normalizeStatus (some "canceled") = "CANCELED" := by
  have h := status_normalized_at_query_boundary (some "canceled") (by decide)
  rw [h]
  decide

end ProHost
